import Mathlib

/-!
Verification of the keyed record store of the bot-helper repository.

The repository ships `bot.py` (the command layer) in source form; the store
modules it imports (`address_book.py`, `record.py`, `birthday.py`,
`save_data/save_on_disk.py`) are not part of the source tree, so those parts
are modelled from the specification document, as marked on each definition.
-/

namespace BotHelper

/-! ### Calendar arithmetic

Modelled from the spec: `daysToBirthday` of `Record` (in `record.py`, not in
the source tree) works on calendar dates with the proleptic Gregorian
calendar of Python's `datetime.date`. -/

/-- Modelled from the spec: Gregorian leap-year rule used by `datetime.date`
(`record.py` is not in the source tree). -/
def isLeap (y : Nat) : Bool :=
  (y % 4 == 0 && y % 100 != 0) || (y % 400 == 0)

/-- 1 on a leap year, 0 otherwise. -/
def leapE (y : Nat) : Nat := if isLeap y = true then 1 else 0

/-- Length of month `m` when the February extra day is `e` (0 or 1). -/
def monthLen (e m : Nat) : Nat :=
  match m with
  | 1 => 31 | 2 => 28 + e | 3 => 31 | 4 => 30 | 5 => 31 | 6 => 30
  | 7 => 31 | 8 => 31 | 9 => 30 | 10 => 31 | 11 => 30 | 12 => 31
  | _ => 0

/-- Days elapsed before month `m` within a year whose February extra day is `e`. -/
def monthOffset (e m : Nat) : Nat :=
  match m with
  | 1 => 0 | 2 => 31 | 3 => 59 + e | 4 => 90 + e | 5 => 120 + e | 6 => 151 + e
  | 7 => 181 + e | 8 => 212 + e | 9 => 243 + e | 10 => 273 + e | 11 => 304 + e
  | 12 => 334 + e
  | _ => 0

/-- Modelled from the spec: a calendar date (year, month, day), the value
stored by the Birthday field type (`birthday.py` is not in the source tree). -/
structure Date where
  year : Nat
  month : Nat
  day : Nat
deriving DecidableEq, Repr

/-- Number of days in a month of a given year. -/
def daysInMonth (y m : Nat) : Nat := monthLen (leapE y) m

/-- A date that `datetime.date` accepts (year at least 1, month 1..12,
day within the month). -/
def ValidDate (d : Date) : Prop :=
  1 ≤ d.year ∧ 1 ≤ d.month ∧ d.month ≤ 12 ∧ 1 ≤ d.day ∧ d.day ≤ daysInMonth d.year d.month

instance (d : Date) : Decidable (ValidDate d) := by
  unfold ValidDate; exact inferInstance

/-- Days-since-epoch count of the year start terms (`date(y,1,1).toordinal() - 1`
is `yearBase y`). -/
def yearBase (y : Nat) : Nat :=
  365 * (y - 1) + (y - 1) / 4 - (y - 1) / 100 + (y - 1) / 400

/-- Modelled from the spec: `datetime.date.toordinal`, day 1 being January 1
of year 1 (used by the date subtraction in `daysToBirthday`). -/
def toOrdinal (d : Date) : Nat :=
  yearBase d.year + monthOffset (leapE d.year) d.month + d.day

/-- Modelled from the spec: "Leap-day birthdays (Feb 29) falling in a non-leap
target year are normalized to Feb 28 of that year" — the day component of the
anniversary of birthday month/day `bm`/`bd` placed in year `y`. -/
def normDay (y bm bd : Nat) : Nat :=
  if bm = 2 ∧ bd = 29 ∧ leapE y = 0 then 28 else bd

/-- Modelled from the spec: "construct this year's anniversary date; if it is
strictly before `today`, use next year's anniversary instead". -/
def nextAnniversary (t : Date) (bm bd : Nat) : Date :=
  if toOrdinal ⟨t.year, bm, normDay t.year bm bd⟩ < toOrdinal t then
    ⟨t.year + 1, bm, normDay (t.year + 1) bm bd⟩
  else
    ⟨t.year, bm, normDay t.year bm bd⟩

/-- Modelled from the spec: `daysToBirthday(today)` returns
`(anniversary - today).days` for the stored birthday's month/day, ignoring the
stored year (`record.days_to_birthday` is not in the source tree). -/
def days_to_birthday (t : Date) (bm bd : Nat) : Int :=
  (toOrdinal (nextAnniversary t bm bd) : Int) - (toOrdinal t : Int)

/-- A month/day pair that is a real birthday, i.e. valid in some (leap) year. -/
def ValidMD (bm bd : Nat) : Prop :=
  1 ≤ bm ∧ bm ≤ 12 ∧ 1 ≤ bd ∧ bd ≤ monthLen 1 bm

instance (bm bd : Nat) : Decidable (ValidMD bm bd) := by
  unfold ValidMD; exact inferInstance

/-! ### Calendar lemmas -/

theorem leapE_spec (y : Nat) :
    (leapE y = 1 ∧ ((y % 4 = 0 ∧ y % 100 ≠ 0) ∨ y % 400 = 0)) ∨
    (leapE y = 0 ∧ ¬((y % 4 = 0 ∧ y % 100 ≠ 0) ∨ y % 400 = 0)) := by
  unfold leapE isLeap
  split
  · rename_i h
    simp only [Bool.or_eq_true, Bool.and_eq_true, beq_iff_eq, bne_iff_ne] at h
    exact Or.inl ⟨rfl, h⟩
  · rename_i h
    simp only [Bool.or_eq_true, Bool.and_eq_true, beq_iff_eq, bne_iff_ne] at h
    exact Or.inr ⟨rfl, h⟩

theorem leapE_le_one (y : Nat) : leapE y ≤ 1 := by
  unfold leapE; split <;> omega

set_option maxHeartbeats 1600000 in
/-- Consecutive year bases differ by the length of the year in between. -/
theorem yearBase_succ (y : Nat) (hy : 1 ≤ y) :
    yearBase (y + 1) = yearBase y + 365 + leapE y := by
  have hc := leapE_spec y
  unfold yearBase
  rcases hc with ⟨he, hc⟩ | ⟨he, hc⟩ <;> rw [he] <;> omega

/-- The in-year offset of a valid month/day lies in `[1, 365 + e]`. -/
theorem off_bounds (e m d : Nat) (hm : 1 ≤ m ∧ m ≤ 12) (hd : 1 ≤ d ∧ d ≤ monthLen e m) :
    1 ≤ monthOffset e m + d ∧ monthOffset e m + d ≤ 365 + e := by
  obtain ⟨hm1, hm2⟩ := hm
  interval_cases m <;> simp only [monthOffset, monthLen] at hd ⊢ <;> omega

/-- Within one year, a valid month/day pair is determined by its offset. -/
theorem off_inj (e m d m' d' : Nat)
    (hm : 1 ≤ m ∧ m ≤ 12) (hd : 1 ≤ d ∧ d ≤ monthLen e m)
    (hm' : 1 ≤ m' ∧ m' ≤ 12) (hd' : 1 ≤ d' ∧ d' ≤ monthLen e m')
    (h : monthOffset e m + d = monthOffset e m' + d') : m = m' ∧ d = d' := by
  obtain ⟨hm1, hm2⟩ := hm
  obtain ⟨hm1', hm2'⟩ := hm'
  interval_cases m <;> interval_cases m' <;>
    simp only [monthOffset, monthLen] at hd hd' h <;> omega

/-- The normalized anniversary day is a valid day of its month in the target year. -/
theorem normDay_bounds (y bm bd : Nat) (hb : ValidMD bm bd) :
    1 ≤ normDay y bm bd ∧ normDay y bm bd ≤ monthLen (leapE y) bm := by
  obtain ⟨hb1, hb2, hb3, hb4⟩ := hb
  have he := leapE_le_one y
  unfold normDay
  split <;> rename_i h
  · obtain ⟨h2, h29, h0⟩ := h
    subst h2; subst h29
    simp only [monthLen] at hb4 ⊢
    omega
  · interval_cases bm <;> simp only [monthLen] at hb4 ⊢ <;> omega

/-- Stepping the normalized anniversary from year `y` to year `y + 1` moves its
offset-within-year by at most `1 - leapE y`. -/
theorem anniv_step (y bm bd : Nat) (hb : ValidMD bm bd) :
    leapE y + monthOffset (leapE (y + 1)) bm + normDay (y + 1) bm bd ≤
      monthOffset (leapE y) bm + normDay y bm bd + 1 := by
  obtain ⟨hb1, hb2, hb3, hb4⟩ := hb
  have he := leapE_le_one y
  have he' := leapE_le_one (y + 1)
  unfold normDay
  interval_cases bm <;> simp only [monthLen] at hb4 <;> split_ifs <;>
    simp only [monthOffset] at * <;> omega

theorem toOrdinal_mk (y m d : Nat) :
    toOrdinal ⟨y, m, d⟩ = yearBase y + monthOffset (leapE y) m + d := rfl

/-- Core fact about `days_to_birthday`: on valid inputs the result lies in
`[0, 365]` and vanishes exactly when today is this year's normalized
anniversary of the birthday. -/
theorem days_to_birthday_spec (t : Date) (bm bd : Nat)
    (ht : ValidDate t) (hb : ValidMD bm bd) :
    0 ≤ days_to_birthday t bm bd ∧ days_to_birthday t bm bd ≤ 365 ∧
    (days_to_birthday t bm bd = 0 ↔ t.month = bm ∧ t.day = normDay t.year bm bd) := by
  obtain ⟨Y, M, D⟩ := t
  unfold ValidDate daysInMonth at ht
  dsimp only at ht
  obtain ⟨hy, hm1, hm2, hdd1, hdd2⟩ := ht
  obtain ⟨hb1, hb2, hb3, hb4⟩ := hb
  have hn1 := normDay_bounds Y bm bd ⟨hb1, hb2, hb3, hb4⟩
  have hn2 := normDay_bounds (Y + 1) bm bd ⟨hb1, hb2, hb3, hb4⟩
  have hob1 := off_bounds (leapE Y) bm (normDay Y bm bd) ⟨hb1, hb2⟩ hn1
  have hob2 := off_bounds (leapE (Y + 1)) bm (normDay (Y + 1) bm bd) ⟨hb1, hb2⟩ hn2
  have hobt := off_bounds (leapE Y) M D ⟨hm1, hm2⟩ ⟨hdd1, hdd2⟩
  have hstep := anniv_step Y bm bd ⟨hb1, hb2, hb3, hb4⟩
  have hys := yearBase_succ Y hy
  have he1 := leapE_le_one Y
  have he2 := leapE_le_one (Y + 1)
  simp only [days_to_birthday, nextAnniversary]
  by_cases hlt : toOrdinal ⟨Y, bm, normDay Y bm bd⟩ < toOrdinal ⟨Y, M, D⟩
  · rw [if_pos hlt]
    rw [toOrdinal_mk] at hlt
    rw [toOrdinal_mk] at hlt
    rw [toOrdinal_mk, toOrdinal_mk]
    refine ⟨by omega, by omega, ?_, ?_⟩
    · intro h0
      exfalso
      omega
    · rintro ⟨hM, hD⟩
      subst hM
      subst hD
      omega
  · rw [if_neg hlt]
    rw [toOrdinal_mk] at hlt
    rw [toOrdinal_mk] at hlt
    rw [toOrdinal_mk, toOrdinal_mk]
    refine ⟨by omega, by omega, ?_, ?_⟩
    · intro h0
      have hEq : monthOffset (leapE Y) M + D
          = monthOffset (leapE Y) bm + normDay Y bm bd := by omega
      have hinj := off_inj (leapE Y) M D bm (normDay Y bm bd)
        ⟨hm1, hm2⟩ ⟨hdd1, hdd2⟩ ⟨hb1, hb2⟩ hn1 hEq
      exact hinj
    · rintro ⟨hM, hD⟩
      subst hM
      subst hD
      omega

/-! ### Records, the address book and persistence -/

/-- Modelled from the spec: the Phone field value, a validated wrapper around
a string (`record.py` is not in the source tree). -/
structure Phone where
  value : String
deriving DecidableEq, Repr

/-- Modelled from the spec: a Record holds a primary-key name, an ordered
sequence of phones, and optional birthday, email and address attributes
(`record.py` is not in the source tree). -/
structure Record where
  name : String
  phones : List Phone
  birthday : Option Date
  email : Option String
  address : Option (List String)
deriving DecidableEq, Repr

/-- Modelled from the spec: the `AddressBook` record store owns the ordered
collection of records (`address_book.py` is not in the source tree). -/
structure AddressBook where
  records : List Record
deriving DecidableEq, Repr

/-- Modelled from the spec: one serialized record of the persisted
JSON-equivalent document, holding the key and every populated attribute
(`save_data/save_on_disk.py` is not in the source tree). -/
structure SerRecord where
  name : String
  phones : List String
  birthday : Option Date
  email : Option String
  address : Option (List String)
deriving DecidableEq, Repr

/-- Modelled from the spec: serialization of one record (phones are kept in
their string form). -/
def serializeRecord (r : Record) : SerRecord :=
  ⟨r.name, r.phones.map Phone.value, r.birthday, r.email, r.address⟩

/-- Modelled from the spec: deserialization of one record. -/
def deserializeRecord (s : SerRecord) : Record :=
  ⟨s.name, s.phones.map Phone.mk, s.birthday, s.email, s.address⟩

/-- Modelled from the spec: `save` serializes the entire record collection to
the persistence target as one document. -/
def save (book : AddressBook) : List SerRecord :=
  book.records.map serializeRecord

/-- Modelled from the spec: `load` returns the full record collection held by
a document, in document order. -/
def load (doc : List SerRecord) : AddressBook :=
  ⟨doc.map deserializeRecord⟩

/-- The full system state: the in-memory store plus the on-disk document. -/
structure State where
  book : AddressBook
  disk : List SerRecord
deriving DecidableEq, Repr

/-! ### Store operations -/

/-- Modelled from the spec: `find(key)` returns the record with exactly the
given name, or a not-found indicator (`address_book.py` is not in the source
tree). -/
def find (book : AddressBook) (name : String) : Option Record :=
  book.records.find? (fun r => r.name == name)

/-- The Python exception kinds that can cross the store boundary in `bot.py`. -/
inductive PyError where
  | keyError (msg : String)
  | valueError (msg : String)
  | indexError (msg : String)
  | recordAlreadyExists (msg : String)
  | attributeError (msg : String)
deriving DecidableEq, Repr

/-- Modelled from the spec: `add(record)` fails with the already-exists error
when the key is present (no overwrite, store and disk untouched), otherwise
appends the record and flushes the whole store to disk. -/
def add_record (st : State) (rec : Record) : Except PyError Unit × State :=
  if st.book.records.any (fun r => r.name == rec.name) then
    (Except.error (PyError.recordAlreadyExists
      ("Record with the name '" ++ rec.name ++ "' already exists in the address book")),
     st)
  else
    let book2 : AddressBook := ⟨st.book.records ++ [rec]⟩
    (Except.ok (), ⟨book2, save book2⟩)

/-- Modelled from the spec: `update(record)` replaces the stored record with
the same key and flushes, failing with a not-found error when the key is
absent. -/
def update_record (st : State) (rec : Record) : Except PyError Unit × State :=
  if st.book.records.any (fun r => r.name == rec.name) then
    let book2 : AddressBook := ⟨st.book.records.map (fun r => if r.name = rec.name then rec else r)⟩
    (Except.ok (), ⟨book2, save book2⟩)
  else
    (Except.error (PyError.keyError rec.name), st)

/-! ### Search -/

/-- Prefix test on character lists (the model of `str.startswith`). -/
def startsWith : List Char → List Char → Bool
  | [], _ => true
  | _ :: _, [] => false
  | a :: pre, b :: l => a == b && startsWith pre l

/-- Substring test on character lists (the model of Python's `in`). -/
def listInfix (needle : List Char) : List Char → Bool
  | [] => needle.isEmpty
  | c :: rest => startsWith needle (c :: rest) || listInfix needle rest

/-- Case-insensitive substring test between strings. -/
def strContainsCI (needle hay : String) : Bool :=
  listInfix (needle.data.map Char.toLower) (hay.data.map Char.toLower)

/-- Modelled from the spec: a record matches a search phrase when the phrase
appears case-insensitively anywhere in the key or in the string form of any
phone (`address_book.search_contact` is not in the source tree). -/
def searchMatches (phrase : String) (r : Record) : Bool :=
  strContainsCI phrase r.name || r.phones.any (fun p => strContainsCI phrase p.value)

/-- The lightweight projection `{name, phones}` returned by search. -/
structure SearchEntry where
  name : String
  phones : List String
deriving DecidableEq, Repr

/-- Projection of a record to its search result entry. -/
def projOf (r : Record) : SearchEntry :=
  ⟨r.name, r.phones.map Phone.value⟩

/-- Modelled from the spec: the scan collecting the matching records in store
order. -/
def searchRecords (phrase : String) : List Record → List SearchEntry
  | [] => []
  | r :: rest =>
    if searchMatches phrase r then projOf r :: searchRecords phrase rest
    else searchRecords phrase rest

/-- Modelled from the spec: `search(substring)` rejects a phrase shorter than
2 characters with the validation error raised in `bot.py` line 179, and
otherwise returns the ordered matching projections. -/
def search_contact (book : AddressBook) (search_phrase : String) :
    Except PyError (List SearchEntry) :=
  if search_phrase.length < 2 then
    Except.error (PyError.valueError "Searched phrase must have at least 2 symbols")
  else
    Except.ok (searchRecords search_phrase book.records)

/-! ### Upcoming birthdays -/

/-- One output item of `upcomingBirthdays`: `{name, birthdayDate, daysToBirthday}`. -/
structure UpEntry where
  name : String
  birthday : Date
  days : Int
deriving DecidableEq, Repr

/-- Modelled from the spec: the scan of `upcomingBirthdays` over the store,
keeping a record with a birthday set when `0 <= daysToBirthday <= daysThreshold`. -/
def upcomingLoop (today : Date) (days_threshold : Int) : List Record → List UpEntry
  | [] => []
  | r :: rest =>
    match r.birthday with
    | some b =>
      if 0 ≤ days_to_birthday today b.month b.day ∧
          days_to_birthday today b.month b.day ≤ days_threshold then
        ⟨r.name, b, days_to_birthday today b.month b.day⟩ :: upcomingLoop today days_threshold rest
      else upcomingLoop today days_threshold rest
    | none => upcomingLoop today days_threshold rest

/-- Modelled from the spec: `get_contacts_upcoming_birthdays` of the address
book (`address_book.py` is not in the source tree). -/
def get_contacts_upcoming_birthdays (book : AddressBook) (today : Date)
    (days_threshold : Int) : List UpEntry :=
  upcomingLoop today days_threshold book.records

/-- The inclusion predicate of `upcomingBirthdays`, as a Boolean on records. -/
def upPred (today : Date) (days_threshold : Int) (r : Record) : Bool :=
  match r.birthday with
  | some b => decide (0 ≤ days_to_birthday today b.month b.day ∧
      days_to_birthday today b.month b.day ≤ days_threshold)
  | none => false

/-! ### Birthday parsing -/

/-- Digits-only decimal parse of a character list (the model of Python `int`
on the date components). -/
def parseNatAux : List Char → Nat → Option Nat
  | [], acc => some acc
  | c :: rest, acc =>
    if c.isDigit then parseNatAux rest (acc * 10 + (c.toNat - 48)) else none

/-- Parse of a non-empty digit string. -/
def parseNat (l : List Char) : Option Nat :=
  match l with
  | [] => none
  | _ :: _ => parseNatAux l 0

/-- Split of a character list at each dash. -/
def splitDash : List Char → List (List Char)
  | [] => [[]]
  | c :: rest =>
    if c = '-' then [] :: splitDash rest
    else
      match splitDash rest with
      | [] => [[c]]
      | h :: t => (c :: h) :: t

/-- Modelled from the spec: the value held by `Birthday(value)` — the
`DD-MM-YYYY` input parsed into a calendar date, rejecting out-of-format input
(`birthday.py` is not in the source tree). -/
def parseBirthday (s : String) : Option Date :=
  match splitDash s.data with
  | [ds, ms, ys] =>
    match parseNat ds, parseNat ms, parseNat ys with
    | some d, some m, some y =>
      if ValidDate ⟨y, m, d⟩ then some ⟨y, m, d⟩ else none
    | _, _, _ => none
  | _ => none

/-! ### The command layer of `bot.py` -/

/-- The `input_error` decorator of `bot.py` (lines 20-39): it turns the four
listed exception kinds into explanatory strings and lets any other exception
escape. -/
def input_error (result : Except PyError String) : Except PyError String :=
  match result with
  | Except.ok s => Except.ok s
  | Except.error (PyError.keyError err) =>
    Except.ok ("There is no such key " ++ err ++ ". Type a correct name!")
  | Except.error (PyError.valueError err) =>
    Except.ok ("Passed values are incorrect. The trace error is '" ++ err ++ "'")
  | Except.error (PyError.indexError _) =>
    Except.ok "Not all parameters have been passed. Check it, please."
  | Except.error (PyError.recordAlreadyExists err) => Except.ok err
  | Except.error e => Except.error e

/-- Two-digit zero-padded rendering of a date component. -/
def pad2 (n : Nat) : String :=
  if n < 10 then "0" ++ Nat.repr n else Nat.repr n

/-- `str(datetime.date)` rendering, `YYYY-MM-DD`. -/
def formatDate (d : Date) : String :=
  Nat.repr d.year ++ "-" ++ pad2 d.month ++ "-" ++ pad2 d.day

/-- The `update_birthday` command of `bot.py` (lines 118-137): it reads the
name and the new birthday from the arguments, reports equality of the new and
the stored value without touching the store, and otherwise stores the new
birthday and flushes. Accessing `rec.birthday.value` on a record without a
birthday raises the attribute error of Python's `None`. -/
def update_birthday (st : State) (args : List String) : Except PyError String × State :=
  match args.get? 0 with
  | none => (Except.error (PyError.indexError "tuple index out of range"), st)
  | some name =>
    match args.get? 1 with
    | none => (Except.error (PyError.indexError "tuple index out of range"), st)
    | some new_birthday =>
      match find st.book name with
      | some rec =>
        match rec.birthday with
        | none =>
          (Except.error (PyError.attributeError
            "'NoneType' object has no attribute 'value'"), st)
        | some b =>
          match parseBirthday new_birthday with
          | none =>
            (Except.error (PyError.valueError
              ("time data '" ++ new_birthday ++ "' does not match format")), st)
          | some nb =>
            if nb = b then
              (Except.ok ("New birthday value for the user '" ++ rec.name ++
                "' is equal to the previous value"), st)
            else
              match update_record st { rec with birthday := some nb } with
              | (Except.ok _, st2) =>
                (Except.ok ("Birthday for contact '" ++ rec.name ++
                  "' has been successfully changed from '" ++ formatDate nb ++
                  "' to '" ++ new_birthday ++ "'"), st2)
              | (Except.error e, st2) => (Except.error e, st2)
      | none =>
        (Except.error (PyError.valueError
          ("The contact with the name '" ++ name ++ "' doesn't exist in the " ++
           "Address Book. Add it first, please.")), st)

/-- The handlers reachable from the `COMMANDS` dictionary of `bot.py`
(lines 341-366), as dispatch tags. -/
inductive Cmd where
  | help_command | hello | add_contact | delete_contact | change_phone
  | update_birthday | find_contact_phone | show_all | good_bye
  | show_days_to_birthday | search_contact | add_phone | add_address
  | add_email | upcoming_birthdays | add_note | delete_note | show_all_notes
  | search_note | add_tags_by_title | change_note_title | change_note_content
  | unknown
deriving DecidableEq, Repr

/-- The `COMMANDS` dictionary of `bot.py` in its insertion order. -/
def COMMANDS : List (String × Cmd) :=
  [("help", Cmd.help_command),
   ("hello", Cmd.hello),
   ("add contact", Cmd.add_contact),
   ("delete contact", Cmd.delete_contact),
   ("change", Cmd.change_phone),
   ("update birthday", Cmd.update_birthday),
   ("phone", Cmd.find_contact_phone),
   ("show all contacts", Cmd.show_all),
   ("good bye", Cmd.good_bye),
   ("close", Cmd.good_bye),
   ("exit", Cmd.good_bye),
   ("show days to birthday", Cmd.show_days_to_birthday),
   ("search contact", Cmd.search_contact),
   ("add phone", Cmd.add_phone),
   ("add address", Cmd.add_address),
   ("add email", Cmd.add_email),
   ("upcoming birthdays", Cmd.upcoming_birthdays),
   ("add note", Cmd.add_note),
   ("delete note", Cmd.delete_note),
   ("show all notes", Cmd.show_all_notes),
   ("search note", Cmd.search_note),
   ("add tags", Cmd.add_tags_by_title),
   ("change note's title", Cmd.change_note_title),
   ("change note's content", Cmd.change_note_content)]

/-- The model of `str.lower` used by `parse_cli_command`. -/
def pyLower (s : String) : String := ⟨s.data.map Char.toLower⟩

/-- The model of `str.strip`. -/
def pyStrip (s : String) : String :=
  ⟨((s.data.dropWhile Char.isWhitespace).reverse.dropWhile Char.isWhitespace).reverse⟩

/-- The accumulator pass behind `str.split()` (whitespace runs separate
words, no empty words are produced). -/
def wordsAux : List Char → List Char → List (List Char)
  | [], cur => if cur.isEmpty then [] else [cur.reverse]
  | c :: rest, cur =>
    if c.isWhitespace then
      if cur.isEmpty then wordsAux rest [] else cur.reverse :: wordsAux rest []
    else wordsAux rest (c :: cur)

/-- The model of Python's argumentless `str.split`. -/
def pySplit (s : String) : List String :=
  (wordsAux s.data []).map (fun l => ⟨l⟩)

/-- The scan of `parse_cli_command` over `COMMANDS`: the first entry whose
name is a prefix of the lowercased input wins. -/
def findCommand : List (String × Cmd) → List Char → Option (String × Cmd)
  | [], _ => none
  | (command_name, func) :: rest, low =>
    if startsWith command_name.data low = true then some (command_name, func)
    else findCommand rest low

/-- The `parse_cli_command` function of `bot.py` (lines 43-52). -/
def parse_cli_command (cli_input : String) : String × Cmd × List String :=
  match findCommand COMMANDS (pyLower cli_input).data with
  | some (command_name, func) =>
    (command_name, func, pySplit (pyStrip ⟨cli_input.data.drop command_name.length⟩))
  | none => ("unknown", Cmd.unknown, [])

/-! ### Helper lemmas about the store scans -/

theorem find?_isSome_any (p : Record → Bool) (l : List Record) :
    (l.find? p).isSome = l.any p := by
  induction l with
  | nil => rfl
  | cons a t ih =>
    cases hpa : p a with
    | true => simp [List.find?, hpa]
    | false => simp [List.find?, hpa, ih]

theorem find?_append_eq (p : Record → Bool) (l : List Record) (x : Record)
    (h : l.find? p = none) (hx : p x = true) : (l ++ [x]).find? p = some x := by
  induction l with
  | nil => simp [List.find?, hx]
  | cons a t ih =>
    cases hpa : p a with
    | true => simp [List.find?, hpa] at h
    | false =>
      simp only [List.find?, hpa] at h
      simp only [List.cons_append, List.find?, hpa]
      exact ih h

theorem phones_roundtrip (l : List Phone) : l.map (Phone.mk ∘ Phone.value) = l := by
  induction l with
  | nil => rfl
  | cons p t ih => cases p; simp [ih]

theorem deser_ser (r : Record) : deserializeRecord (serializeRecord r) = r := by
  cases r
  simp [serializeRecord, deserializeRecord, phones_roundtrip]

theorem searchRecords_eq_filter (phrase : String) (l : List Record) :
    searchRecords phrase l = (l.filter (searchMatches phrase)).map projOf := by
  induction l with
  | nil => rfl
  | cons r t ih =>
    cases h : searchMatches phrase r with
    | true => simp [searchRecords, List.filter_cons, h, ih]
    | false => simp [searchRecords, List.filter_cons, h, ih]

theorem upcomingLoop_names (today : Date) (n : Int) (l : List Record) :
    (upcomingLoop today n l).map UpEntry.name
      = (l.filter (upPred today n)).map Record.name := by
  induction l with
  | nil => rfl
  | cons r t ih =>
    cases hb : r.birthday with
    | none => simp [upcomingLoop, hb, upPred, List.filter_cons, ih]
    | some b =>
      by_cases hc : 0 ≤ days_to_birthday today b.month b.day ∧
          days_to_birthday today b.month b.day ≤ n
      · simp [upcomingLoop, hb, hc, upPred, List.filter_cons, ih]
      · simp [upcomingLoop, hb, hc, upPred, List.filter_cons, ih]

theorem upcomingLoop_mem (today : Date) (n : Int) (l : List Record) (e : UpEntry)
    (h : e ∈ upcomingLoop today n l) :
    0 ≤ e.days ∧ e.days ≤ n ∧ ∃ r ∈ l, ∃ b, r.birthday = some b ∧
      e = ⟨r.name, b, days_to_birthday today b.month b.day⟩ := by
  induction l with
  | nil => simp [upcomingLoop] at h
  | cons r t ih =>
    cases hb : r.birthday with
    | none =>
      rw [upcomingLoop, hb] at h
      obtain ⟨h1, h2, rr, hrr, hb', he⟩ := ih h
      exact ⟨h1, h2, rr, List.mem_cons_of_mem _ hrr, hb', he⟩
    | some b =>
      rw [upcomingLoop, hb] at h
      dsimp only at h
      by_cases hc : 0 ≤ days_to_birthday today b.month b.day ∧
          days_to_birthday today b.month b.day ≤ n
      · rw [if_pos hc] at h
        rcases List.mem_cons.mp h with he | ht
        · subst he
          exact ⟨hc.1, hc.2, r, List.mem_cons_self r t, b, hb, rfl⟩
        · obtain ⟨h1, h2, rr, hrr, hb', he⟩ := ih ht
          exact ⟨h1, h2, rr, List.mem_cons_of_mem _ hrr, hb', he⟩
      · rw [if_neg hc] at h
        obtain ⟨h1, h2, rr, hrr, hb', he⟩ := ih h
        exact ⟨h1, h2, rr, List.mem_cons_of_mem _ hrr, hb', he⟩

/-! ### Helper lemmas about command parsing -/

theorem startsWith_ex (p : List Char) : ∀ l, startsWith p l = true → ∃ t, l = p ++ t := by
  induction p with
  | nil => intro l _; exact ⟨l, rfl⟩
  | cons a p ih =>
    intro l h
    cases l with
    | nil => simp [startsWith] at h
    | cons b l =>
      simp only [startsWith, Bool.and_eq_true, beq_iff_eq] at h
      obtain ⟨rfl, h2⟩ := h
      obtain ⟨t, rfl⟩ := ih l h2
      exact ⟨t, rfl⟩

theorem startsWith_self_append (p t : List Char) : startsWith p (p ++ t) = true := by
  induction p with
  | nil => rfl
  | cons a p ih => simp [startsWith, ih]

theorem startsWith_trans (p q l : List Char)
    (h1 : startsWith p q = true) (h2 : startsWith q l = true) :
    startsWith p l = true := by
  obtain ⟨t1, rfl⟩ := startsWith_ex p q h1
  obtain ⟨t2, rfl⟩ := startsWith_ex _ l h2
  rw [List.append_assoc]
  exact startsWith_self_append p _

theorem findCommand_change (l : List Char) (h : startsWith "change".data l = true) :
    findCommand COMMANDS l = some ("change", Cmd.change_phone) := by
  obtain ⟨t, rfl⟩ := startsWith_ex _ l h
  rfl

theorem findCommand_mem (cmds : List (String × Cmd)) (l : List Char)
    (p : String × Cmd) (h : findCommand cmds l = some p) :
    p ∈ cmds ∧ startsWith p.1.data l = true := by
  induction cmds with
  | nil => simp [findCommand] at h
  | cons c rest ih =>
    obtain ⟨cn, cf⟩ := c
    rw [findCommand] at h
    by_cases hsw : startsWith cn.data l = true
    · rw [if_pos hsw] at h
      obtain rfl := Option.some.inj h
      exact ⟨List.mem_cons_self _ _, hsw⟩
    · rw [if_neg hsw] at h
      obtain ⟨hmem, hstart⟩ := ih h
      exact ⟨List.mem_cons_of_mem _ hmem, hstart⟩

/-! ### Concrete fixtures -/

/-- The empty system state. -/
def emptyState : State := ⟨⟨[]⟩, []⟩

/-- The record of the Alice scenario of the spec. -/
def alice : Record := ⟨"Alice", [⟨"+1234567890"⟩], none, none, none⟩

/-- A colliding record with the same key and another phone. -/
def alice2 : Record := ⟨"Alice", [⟨"+0000000000"⟩], none, none, none⟩

/-- A state holding exactly the Alice record, flushed to disk. -/
def aliceState : State := ⟨⟨[alice]⟩, save ⟨[alice]⟩⟩

/-- The store of the search scenario of the spec. -/
def annaBook : AddressBook :=
  ⟨[⟨"Anna", [⟨"111"⟩], none, none, none⟩,
    ⟨"Anton", [⟨"222"⟩], none, none, none⟩,
    ⟨"Boris", [⟨"333"⟩], none, none, none⟩]⟩

/-- A contact with a stored birthday. -/
def johnWithBday : Record := ⟨"John", [⟨"380995057766"⟩], some ⟨2000, 1, 1⟩, none, none⟩

/-- A state holding exactly `johnWithBday`, flushed to disk. -/
def johnState : State := ⟨⟨[johnWithBday]⟩, save ⟨[johnWithBday]⟩⟩

/-- A contact added without a birthday, as `add contact John 380995057766` does. -/
def johnNoBday : Record := ⟨"John", [⟨"380995057766"⟩], none, none, none⟩

/-- A state holding exactly `johnNoBday`, flushed to disk. -/
def johnNoBdayState : State := ⟨⟨[johnNoBday]⟩, save ⟨[johnNoBday]⟩⟩

/-- A store with two birthday records and one record without a birthday. -/
def upBook : AddressBook :=
  ⟨[⟨"Bob", [⟨"11"⟩], some ⟨1990, 10, 20⟩, none, none⟩,
    ⟨"Carol", [⟨"22"⟩], some ⟨1985, 1, 1⟩, none, none⟩,
    ⟨"Dan", [⟨"33"⟩], none, none, none⟩]⟩

/-! ### Claim theorems -/

/-- C1: for every store state, adding a record whose primary key is already
present fails with the already-exists error and leaves the store (memory and
disk) unchanged; adding a record with an absent key succeeds and a subsequent
`find` with that key returns a record equal to the one added. -/
theorem add_record_spec (st : State) (rec : Record) :
    ((find st.book rec.name).isSome = true →
      add_record st rec = (Except.error (PyError.recordAlreadyExists
        ("Record with the name '" ++ rec.name ++ "' already exists in the address book")),
        st)) ∧
    (find st.book rec.name = none →
      (add_record st rec).1 = Except.ok () ∧
      find (add_record st rec).2.book rec.name = some rec) := by
  constructor
  · intro h
    have hany : st.book.records.any (fun r => r.name == rec.name) = true := by
      rw [← find?_isSome_any]
      exact h
    simp [add_record, hany]
  · intro h
    have hany : st.book.records.any (fun r => r.name == rec.name) = false := by
      rw [← find?_isSome_any]
      unfold find at h
      simp [h]
    refine ⟨by simp [add_record, hany], ?_⟩
    simp only [add_record, hany, Bool.false_eq_true, if_false]
    unfold find at h ⊢
    exact find?_append_eq _ _ _ h (by simp)

/-- C1 witness: on the empty store adding Alice succeeds and she is found;
on a store already holding Alice, adding a second Alice fails and the state
is untouched. -/
theorem add_record_spec_w :
    ((add_record emptyState alice).1 = Except.ok () ∧
      find (add_record emptyState alice).2.book "Alice" = some alice) ∧
    add_record aliceState alice2 = (Except.error (PyError.recordAlreadyExists
      "Record with the name 'Alice' already exists in the address book"), aliceState) :=
  ⟨(add_record_spec emptyState alice).2 rfl, (add_record_spec aliceState alice2).1 rfl⟩

/-- C2: loading the document produced by saving any store yields a collection
equal to the one saved (round-trip law). -/
theorem load_save_roundtrip (book : AddressBook) : load (save book) = book := by
  cases book with
  | mk l =>
    unfold load save
    dsimp only
    congr 1
    induction l with
    | nil => rfl
    | cons r t ih => simp only [List.map_cons, deser_ser, ih]

/-- C3 counterexample: for the leap-day birthday Feb 29 evaluated on
2025-02-28 (both valid inputs), `daysToBirthday` returns 0 although today's
month/day pair differs from the stored birthday's month/day pair. -/
theorem days_to_birthday_zero_cex :
    ValidDate ⟨2025, 2, 28⟩ ∧ ValidMD 2 29 ∧
    days_to_birthday ⟨2025, 2, 28⟩ 2 29 = 0 ∧
    ¬((Date.mk 2025 2 28).month = 2 ∧ (Date.mk 2025 2 28).day = 29) := by
  refine ⟨by decide, by decide, by decide, by decide⟩

/-- C3 (amended): on valid inputs `daysToBirthday` lies in `[0, 365]` and is
0 exactly when today is this year's leap-normalized anniversary, i.e. today's
month/day equals the birthday's month paired with its normalized day. -/
theorem days_to_birthday_range_zero (t : Date) (bm bd : Nat)
    (ht : ValidDate t) (hb : ValidMD bm bd) :
    0 ≤ days_to_birthday t bm bd ∧ days_to_birthday t bm bd ≤ 365 ∧
    (days_to_birthday t bm bd = 0 ↔
      t.month = bm ∧ t.day = normDay t.year bm bd) :=
  days_to_birthday_spec t bm bd ht hb

/-- C3 witness: the amended statement instantiated at today 2025-10-12 and
birthday Feb 29. -/
theorem days_to_birthday_range_zero_w :
    0 ≤ days_to_birthday ⟨2025, 10, 12⟩ 2 29 ∧
    days_to_birthday ⟨2025, 10, 12⟩ 2 29 ≤ 365 ∧
    (days_to_birthday ⟨2025, 10, 12⟩ 2 29 = 0 ↔
      (Date.mk 2025 10 12).month = 2 ∧
      (Date.mk 2025 10 12).day = normDay 2025 2 29) :=
  days_to_birthday_range_zero ⟨2025, 10, 12⟩ 2 29 (by decide) (by decide)

/-- C4: for the birthday 1990-02-29 evaluated on 2025-03-01, the next
anniversary is the normalized 2026-02-28 and the day count is the date
difference of that literal pair, namely 364. -/
theorem leap_birthday_fixture :
    nextAnniversary ⟨2025, 3, 1⟩ 2 29 = ⟨2026, 2, 28⟩ ∧
    days_to_birthday ⟨2025, 3, 1⟩ 2 29 =
      (toOrdinal ⟨2026, 2, 28⟩ : Int) - (toOrdinal ⟨2025, 3, 1⟩ : Int) ∧
    days_to_birthday ⟨2025, 3, 1⟩ 2 29 = 364 := by
  refine ⟨by decide, by decide, by decide⟩

/-- C5: a search phrase of fewer than 2 characters fails with the validation
error; a phrase of at least 2 characters never fails and yields a (possibly
empty) result sequence. -/
theorem search_min_length (book : AddressBook) (phrase : String) :
    (phrase.length < 2 →
      search_contact book phrase = Except.error
        (PyError.valueError "Searched phrase must have at least 2 symbols")) ∧
    (2 ≤ phrase.length →
      ∃ results, search_contact book phrase = Except.ok results) := by
  constructor
  · intro h
    simp [search_contact, h]
  · intro h
    have h2 : ¬phrase.length < 2 := by omega
    exact ⟨searchRecords phrase book.records, by simp [search_contact, h2]⟩

/-- C5 witness: on the Anna/Anton/Boris store the one-character phrase "a"
fails with the validation error while "an" succeeds. -/
theorem search_min_length_w :
    ("a".length < 2 ∧ search_contact annaBook "a" = Except.error
      (PyError.valueError "Searched phrase must have at least 2 symbols")) ∧
    (2 ≤ "an".length ∧ ∃ results, search_contact annaBook "an" = Except.ok results) :=
  ⟨⟨by decide, (search_min_length annaBook "a").1 (by decide)⟩,
   ⟨by decide, (search_min_length annaBook "an").2 (by decide)⟩⟩

/-- C6: for a phrase of at least 2 characters, search returns exactly the
records matched case-insensitively in the key or in the string form of some
phone, projected to `{name, phones}` and listed in store order. -/
theorem search_matching (book : AddressBook) (phrase : String)
    (h : 2 ≤ phrase.length) :
    search_contact book phrase =
      Except.ok ((book.records.filter (searchMatches phrase)).map projOf) := by
  have h2 : ¬phrase.length < 2 := by omega
  unfold search_contact
  rw [if_neg h2, searchRecords_eq_filter]

/-- C6 witness: on the store `["Anna", "Anton", "Boris"]` the search for "an"
returns the Anna and Anton projections in that order. -/
theorem search_matching_w :
    search_contact annaBook "an" =
      Except.ok [⟨"Anna", ["111"]⟩, ⟨"Anton", ["222"]⟩] :=
  (search_matching annaBook "an" (by decide)).trans rfl

/-- C7: `upcomingBirthdays(daysThreshold)` keeps exactly the records with a
birthday whose day count lies in `[0, daysThreshold]`, in store order, and
every returned entry carries a day count inside those bounds. -/
theorem upcoming_birthdays_spec (book : AddressBook) (today : Date) (n : Int) :
    ((get_contacts_upcoming_birthdays book today n).map UpEntry.name
      = (book.records.filter (upPred today n)).map Record.name) ∧
    (∀ e ∈ get_contacts_upcoming_birthdays book today n,
      0 ≤ e.days ∧ e.days ≤ n ∧ ∃ r ∈ book.records, ∃ b, r.birthday = some b ∧
        e = ⟨r.name, b, days_to_birthday today b.month b.day⟩) := by
  constructor
  · exact upcomingLoop_names today n book.records
  · intro e he
    exact upcomingLoop_mem today n book.records e he

/-- C7 witness: on a concrete store, today 2025-10-12 and threshold 10, the
returned Bob entry has its day count between 0 and 10 and stems from the Bob
record. -/
theorem upcoming_birthdays_spec_w :
    0 ≤ (UpEntry.mk "Bob" ⟨1990, 10, 20⟩ 8).days ∧
    (UpEntry.mk "Bob" ⟨1990, 10, 20⟩ 8).days ≤ 10 ∧
    ∃ r ∈ upBook.records, ∃ b, r.birthday = some b ∧
      (UpEntry.mk "Bob" ⟨1990, 10, 20⟩ 8)
        = ⟨r.name, b, days_to_birthday ⟨2025, 10, 12⟩ b.month b.day⟩ :=
  (upcoming_birthdays_spec upBook ⟨2025, 10, 12⟩ 10).2
    (UpEntry.mk "Bob" ⟨1990, 10, 20⟩ 8) (by decide)

/-- C8: the code slip behind the claim — `update_birthday` on an existing
contact without a stored birthday raises the attribute error of Python's
`None`, which `input_error` does not catch, so it escapes to the REPL loop
and terminates the process, against the claim that every store error is
rendered as a one-line message. -/
theorem update_birthday_uncaught :
    input_error (update_birthday johnNoBdayState ["John", "01-01-2000"]).1
      = Except.error (PyError.attributeError
          "'NoneType' object has no attribute 'value'") ∧
    (update_birthday johnNoBdayState ["John", "01-01-2000"]).2 = johnNoBdayState := by
  refine ⟨rfl, rfl⟩

/-- C9: updating the birthday of an existing contact with a value equal to
the stored one reports the unchanged message and performs no store mutation
and no persistence flush: memory and disk are both left as they were. -/
theorem update_birthday_unchanged (st : State) (nm new : String) (rec : Record)
    (b : Date) (h1 : find st.book nm = some rec) (h2 : rec.birthday = some b)
    (h3 : parseBirthday new = some b) :
    update_birthday st [nm, new] =
      (Except.ok ("New birthday value for the user '" ++ rec.name ++
        "' is equal to the previous value"), st) := by
  simp [update_birthday, h1, h2, h3]

/-- C9 witness: the John record with stored birthday 2000-01-01 updated with
the equal input `01-01-2000` reports the unchanged message and the whole
state — store and disk — is returned untouched. -/
theorem update_birthday_unchanged_w :
    update_birthday johnState ["John", "01-01-2000"] =
      (Except.ok ("New birthday value for the user 'John'" ++
        " is equal to the previous value"), johnState) :=
  update_birthday_unchanged johnState "John" "01-01-2000" johnWithBday
    ⟨2000, 1, 1⟩ rfl rfl rfl

/-- C10: every input whose lowercase form begins with "change" resolves to
the `"change"` entry and dispatches to the change-phone handler, and no input
at all dispatches to the note-title or note-content handlers: those entries
of `COMMANDS` are unreachable. -/
theorem parse_change_dispatch :
    (∀ s : String, startsWith "change".data (pyLower s).data = true →
      (parse_cli_command s).1 = "change" ∧
      (parse_cli_command s).2.1 = Cmd.change_phone) ∧
    (∀ s : String, (parse_cli_command s).2.1 ≠ Cmd.change_note_title ∧
      (parse_cli_command s).2.1 ≠ Cmd.change_note_content) := by
  constructor
  · intro s h
    rw [parse_cli_command, findCommand_change _ h]
    exact ⟨rfl, rfl⟩
  · intro s
    rcases hfc : findCommand COMMANDS (pyLower s).data with _ | ⟨n, c⟩
    · rw [parse_cli_command, hfc]
      dsimp only
      exact ⟨by decide, by decide⟩
    · obtain ⟨hmem, hpre⟩ := findCommand_mem COMMANDS (pyLower s).data (n, c) hfc
      rw [parse_cli_command, hfc]
      dsimp only
      constructor
      · intro hc
        rw [hc] at hmem hfc
        simp only [COMMANDS, List.mem_cons, Prod.mk.injEq, List.mem_singleton,
          List.not_mem_nil, or_false] at hmem
        have hn : n = "change note's title" := by
          rcases hmem with h | h | h | h | h | h | h | h | h | h | h | h |
            h | h | h | h | h | h | h | h | h | h | h | h <;>
            first
            | exact h.1
            | exact absurd h.2 (by decide)
        rw [hc] at hpre
        dsimp only at hpre
        rw [hn] at hpre
        have hch : startsWith "change".data (pyLower s).data = true :=
          startsWith_trans _ _ _ (by decide) hpre
        rw [findCommand_change _ hch] at hfc
        have hcmd : Cmd.change_phone = Cmd.change_note_title :=
          congrArg Prod.snd (Option.some.inj hfc)
        exact absurd hcmd (by decide)
      · intro hc
        rw [hc] at hmem hfc
        simp only [COMMANDS, List.mem_cons, Prod.mk.injEq, List.mem_singleton,
          List.not_mem_nil, or_false] at hmem
        have hn : n = "change note's content" := by
          rcases hmem with h | h | h | h | h | h | h | h | h | h | h | h |
            h | h | h | h | h | h | h | h | h | h | h | h <;>
            first
            | exact h.1
            | exact absurd h.2 (by decide)
        rw [hc] at hpre
        dsimp only at hpre
        rw [hn] at hpre
        have hch : startsWith "change".data (pyLower s).data = true :=
          startsWith_trans _ _ _ (by decide) hpre
        rw [findCommand_change _ hch] at hfc
        have hcmd : Cmd.change_phone = Cmd.change_note_content :=
          congrArg Prod.snd (Option.some.inj hfc)
        exact absurd hcmd (by decide)

/-- C10 witness: the input `Change note's content X 1` begins (lowercased)
with "change" and indeed dispatches to the change-phone handler under the
name `"change"`. -/
theorem parse_change_dispatch_w :
    startsWith "change".data (pyLower "Change note's content X 1").data = true ∧
    (parse_cli_command "Change note's content X 1").1 = "change" ∧
    (parse_cli_command "Change note's content X 1").2.1 = Cmd.change_phone :=
  ⟨by decide, parse_change_dispatch.1 "Change note's content X 1" (by decide)⟩

end BotHelper
